import Mathlib

/-!
Verification of the command dispatch and input-safety layer of the
spotify-dxt MCP server (src/server/index.js).

The embedding models JavaScript values reaching the handler as `JSValue`
(JS numbers are modelled as exact rationals plus NaN and signed infinity;
no claim here depends on float rounding), the external `osascript`
executor as an oracle function `Exec`, and the request handler as a pure
function returning the produced outcome together with the list of
scripts handed to the executor.
-/

namespace SpotifyDxt

/-- A JavaScript number: NaN, a signed infinity, or a finite value
(modelled as an exact rational). -/
inductive JSNum where
  | nan : JSNum
  | inf : Bool → JSNum
  | fin : ℚ → JSNum
deriving DecidableEq, Repr

/-- A JavaScript value as it can arrive in a tool call's argument bag. -/
inductive JSValue where
  | undef : JSValue
  | null : JSValue
  | bool : Bool → JSValue
  | num : JSNum → JSValue
  | str : String → JSValue
deriving DecidableEq, Repr

/-- Whitespace recognized by the Number() string coercion and trim
(ASCII whitespace plus no-break space; further Unicode space characters
are omitted, none of which appear in any claim). -/
def isJsWhitespaceChar (c : Char) : Bool :=
  c = ' ' || c = '\t' || c = '\n' || c = '\r' || c = '\x0b' || c = '\x0c' || c = '\xa0'

/-- Drop JS whitespace from both ends of a character list. -/
def jsTrim (l : List Char) : List Char :=
  ((l.dropWhile isJsWhitespaceChar).reverse.dropWhile isJsWhitespaceChar).reverse

/-- String.prototype.trim: drop whitespace from both ends. -/
def jsTrimS (s : String) : String := ⟨jsTrim s.data⟩

def isDigitChar (c : Char) : Bool := '0' ≤ c && c ≤ '9'

def digitsVal (ds : List Char) : Nat :=
  ds.foldl (fun a c => a * 10 + (c.toNat - 48)) 0

def isHexDigitChar (c : Char) : Bool :=
  isDigitChar c || ('a' ≤ c && c ≤ 'f') || ('A' ≤ c && c ≤ 'F')

def hexVal (c : Char) : Nat :=
  if isDigitChar c then c.toNat - 48
  else if 'a' ≤ c then c.toNat - 87
  else c.toNat - 55

def radixVal (b : Nat) (ds : List Char) : Nat :=
  ds.foldl (fun a c => a * b + hexVal c) 0

/-- The optional exponent tail of a decimal numeric string
(empty, or e/E followed by an optionally signed digit run). -/
def parseExpPart : List Char → Option Int
  | [] => some 0
  | c :: r =>
    if c = 'e' || c = 'E' then
      let sd : Int × List Char :=
        match r with
        | '+' :: r2 => (1, r2)
        | '-' :: r2 => (-1, r2)
        | _ => (1, r)
      if sd.2.isEmpty then none
      else if sd.2.all isDigitChar then some (sd.1 * digitsVal sd.2) else none
    else none

/-- The exact rational (ipv + fpv / 10^flen) * 10^e, assembled as one
normalized fraction of integers (integer part, fraction digits, fraction
length, decimal exponent). -/
def decValue (ipv fpv flen : Nat) (e : Int) : ℚ :=
  match e with
  | .ofNat n => mkRat (((ipv * 10 ^ flen + fpv) * 10 ^ n : Nat) : Int) (10 ^ flen)
  | .negSucc n => mkRat ((ipv * 10 ^ flen + fpv : Nat) : Int) (10 ^ flen * 10 ^ (n + 1))

/-- An unsigned decimal literal: digits, optional fraction, optional
exponent, with at least one digit overall; the whole input must be
consumed. -/
def parseUnsignedDec (l : List Char) : Option ℚ :=
  let ip := l.takeWhile isDigitChar
  let r1 := l.dropWhile isDigitChar
  match r1 with
  | '.' :: r2 =>
    let fp := r2.takeWhile isDigitChar
    let r3 := r2.dropWhile isDigitChar
    if ip.isEmpty && fp.isEmpty then none
    else (parseExpPart r3).map fun e => decValue (digitsVal ip) (digitsVal fp) fp.length e
  | _ =>
    if ip.isEmpty then none
    else (parseExpPart r1).map fun e => decValue (digitsVal ip) 0 0 e

/-- A signed decimal literal or Infinity, after trimming. -/
def decSigned (t : List Char) : JSNum :=
  let pu : Bool × List Char :=
    match t with
    | '+' :: r => (true, r)
    | '-' :: r => (false, r)
    | _ => (true, t)
  if pu.2 = "Infinity".data then .inf pu.1
  else
    match parseUnsignedDec pu.2 with
    | some q => .fin (if pu.1 then q else -q)
    | none => .nan

/-- The Number() coercion applied to a string: trimmed empty means 0;
0x/0o/0b radix literals (unsigned only); otherwise a signed decimal
literal or Infinity; anything else is NaN. -/
def jsStringToNumber (s : String) : JSNum :=
  let t := jsTrim s.data
  match t with
  | [] => .fin 0
  | '0' :: x :: r =>
    if x = 'x' || x = 'X' then
      if !r.isEmpty && r.all isHexDigitChar then .fin (mkRat (radixVal 16 r) 1) else .nan
    else if x = 'o' || x = 'O' then
      if !r.isEmpty && r.all (fun c => '0' ≤ c && c ≤ '7') then .fin (mkRat (radixVal 8 r) 1)
      else .nan
    else if x = 'b' || x = 'B' then
      if !r.isEmpty && r.all (fun c => c = '0' || c = '1') then .fin (mkRat (radixVal 2 r) 1)
      else .nan
    else decSigned t
  | _ => decSigned t

/-- The Number() coercion on a JS value: undefined is NaN, null is 0,
booleans are 0/1, numbers pass through, strings go through the string
numeric grammar. -/
def toNumber : JSValue → JSNum
  | .undef => .nan
  | .null => .fin 0
  | .bool b => .fin (if b then 1 else 0)
  | .num x => x
  | .str s => jsStringToNumber s

/-- JS truthiness of a value. -/
def truthy : JSValue → Bool
  | .undef => false
  | .null => false
  | .bool b => b
  | .num .nan => false
  | .num (.inf _) => true
  | .num (.fin q) => decide (q ≠ 0)
  | .str s => decide (s ≠ "")

/-- The < comparison on JS numbers (false whenever NaN is involved). -/
def jsLt : JSNum → JSNum → Bool
  | .nan, _ => false
  | _, .nan => false
  | .fin a, .fin b => decide (a < b)
  | .fin _, .inf pos => pos
  | .inf pos, .fin _ => !pos
  | .inf a, .inf b => !a && b

/-- Decimal rendering of a finite JS number. Every value rendered by a
verified claim is integral; non-integral values (reachable only through
the set_position script, which no claim inspects) are rendered as
num/den, an approximation of JS shortest-decimal float formatting. -/
def ratToJsString (q : ℚ) : String :=
  if q.den = 1 then toString q.num
  else toString q.num ++ "/" ++ toString q.den

/-- Template-literal rendering of a JS number. -/
def jsNumToString : JSNum → String
  | .nan => "NaN"
  | .inf pos => if pos then "Infinity" else "-Infinity"
  | .fin q => ratToJsString q

/-- validateInteger from src/server/index.js: coerce with Number, reject
non-integers, then range-check against min and max. -/
def validateInteger (value : JSValue) (name : String) (min max : JSNum) :
    Except String ℚ :=
  match toNumber value with
  | .fin q =>
    if q.den = 1 then
      if jsLt (.fin q) min || jsLt max (.fin q) then
        .error (name ++ " must be between " ++ jsNumToString min ++ " and " ++ jsNumToString max)
      else .ok q
    else .error (name ++ " must be an integer")
  | _ => .error (name ++ " must be an integer")

/-- validateNumber from src/server/index.js: coerce with Number, reject
non-finite values, then range-check. -/
def validateNumber (value : JSValue) (name : String) (min max : JSNum) :
    Except String ℚ :=
  match toNumber value with
  | .fin q =>
    if jsLt (.fin q) min || jsLt max (.fin q) then
      .error (name ++ " must be between " ++ jsNumToString min ++ " and " ++ jsNumToString max)
    else .ok q
  | _ => .error (name ++ " must be a valid number")

/-- validateBoolean from src/server/index.js: accept exactly values of
declared type boolean, unchanged. -/
def validateBoolean (value : JSValue) (name : String) : Except String Bool :=
  match value with
  | .bool b => .ok b
  | _ => .error (name ++ " must be a boolean")

/-- Lowercase hex digit. -/
def hexDig (n : Nat) : Char :=
  if n < 10 then Char.ofNat (48 + n) else Char.ofNat (87 + n)

/-- The escape JSON.stringify applies to one character of a string:
quote and backslash get a backslash; backspace, tab, newline, form feed
and carriage return get their short escapes; remaining control
characters get a lowercase unicode escape; everything else is copied. -/
def jsonEscapeChar (c : Char) : List Char :=
  if c = '"' then ['\\', '"']
  else if c = '\\' then ['\\', '\\']
  else if c = '\x08' then ['\\', 'b']
  else if c = '\t' then ['\\', 't']
  else if c = '\n' then ['\\', 'n']
  else if c = '\x0c' then ['\\', 'f']
  else if c = '\r' then ['\\', 'r']
  else if c.toNat < 32 then ['\\', 'u', '0', '0', hexDig (c.toNat / 16), hexDig (c.toNat % 16)]
  else [c]

def escapeL (l : List Char) : List Char := l.flatMap jsonEscapeChar

/-- escapeAppleScriptString on a string argument:
JSON.stringify(str).slice(1, -1), i.e. the JSON string body without the
added surrounding quotes. -/
def escapeS (s : String) : String := ⟨escapeL s.data⟩

/-- escapeAppleScriptString from src/server/index.js: non-strings map to
the empty string, strings to their JSON escape body. -/
def escapeAppleScriptString : JSValue → String
  | .str s => escapeS s
  | _ => ""

def isAlnumChar (c : Char) : Bool :=
  ('a' ≤ c && c ≤ 'z') || ('A' ≤ c && c ≤ 'Z') || ('0' ≤ c && c ≤ '9')

/-- Matcher for the regex tail after the URI type, inside a segment:
`seen` records whether the current segment already has a character.
Accepts the rest of `(:[a-zA-Z0-9]+)*` with the current segment
completed nonempty. -/
def matchSegBody : List Char → Bool → Bool
  | [], seen => seen
  | c :: rest, seen =>
    if c = ':' then
      if seen then matchSegBody rest false else false
    else
      if isAlnumChar c then matchSegBody rest true else false

/-- Matcher for `(:[a-zA-Z0-9]+)+$`. -/
def matchSegs : List Char → Bool
  | [] => false
  | c :: rest => if c = ':' then matchSegBody rest false else false

/-- Strip an expected prefix from a character list. -/
def stripP : List Char → List Char → Option (List Char)
  | [], l => some l
  | _ :: _, [] => none
  | p :: ps, c :: cs => if p = c then stripP ps cs else none

def uriTypes : List String :=
  ["track", "album", "artist", "playlist", "show", "episode", "user", "collection"]

/-- The regex test of src/server/index.js line 80:
`^spotify:(track|album|artist|playlist|show|episode|user|collection)(:[a-zA-Z0-9]+)+$`.
Alternation is resolved by trying every type; since a type is followed
by a mandatory colon and segments are colon-free, this equals the
backtracking regex semantics. -/
def spotifyUriTest (s : String) : Bool :=
  match stripP "spotify:".data s.data with
  | none => false
  | some rest =>
    uriTypes.any fun t =>
      match stripP t.data rest with
      | none => false
      | some r => matchSegs r

/-- isValidSpotifyUri from src/server/index.js: non-strings fail the
typeof check; strings are tested against the URI regex. -/
def isValidSpotifyUri : JSValue → Bool
  | .str s => spotifyUriTest s
  | _ => false

/-- A segment of the spec's URI grammar: one or more alphanumerics. -/
def GoodSeg (g : List Char) : Prop :=
  g ≠ [] ∧ ∀ c ∈ g, isAlnumChar c = true

/-- Concatenation of `:<segment>` groups. -/
def segJoin (segs : List (List Char)) : List Char :=
  segs.flatMap fun g => ':' :: g

/-- Modelled from the spec: membership in the grammar
`spotify:<type>:<segment>(:<segment>)*` with the eight listed types and
each segment one or more ASCII alphanumerics. -/
def SpotifyGrammar (s : String) : Prop :=
  ∃ t ∈ uriTypes, ∃ segs : List (List Char),
    segs ≠ [] ∧ (∀ g ∈ segs, GoodSeg g) ∧
    s.data = "spotify:".data ++ t.data ++ segJoin segs

/-- AppleScript's decoding of one backslash escape: n, r and t denote
control characters; a backslash before any other character yields that
character (AppleScript has no \b, \f or \uXXXX escapes). -/
def asUnescapeChar (c : Char) : Char :=
  if c = 'n' then '\n' else if c = 'r' then '\r' else if c = 't' then '\t' else c

/-- Scanner for an AppleScript double-quoted literal body: given the
characters after the opening quote, consume up to the unescaped closing
quote, returning the decoded content and the remaining characters. -/
def asScanLiteral : List Char → Option (List Char × List Char)
  | [] => none
  | c :: rest =>
    if c = '"' then some ([], rest)
    else if c = '\\' then
      match rest with
      | [] => none
      | d :: rest2 => (asScanLiteral rest2).map fun p => (asUnescapeChar d :: p.1, p.2)
    else (asScanLiteral rest).map fun p => (c :: p.1, p.2)

/-- Decode a complete literal body (what stands between the quotes). -/
def decodeASLiteral (body : String) : Option String :=
  match asScanLiteral (body.data ++ ['"']) with
  | some (content, []) => some ⟨content⟩
  | _ => none

/-- A character whose JSON escape AppleScript decodes back to itself:
anything outside the C0 controls, plus tab, newline and carriage
return. -/
def goodChar (c : Char) : Bool :=
  decide (32 ≤ c.toNat) || c = '\t' || c = '\n' || c = '\r'

/-- The play_track script template of src/server/index.js lines 405-407,
applied to already-escaped texts. -/
def playTrackScript (safeUri : String) (safeContext : Option String) : String :=
  match safeContext with
  | some c =>
    "tell application \"Spotify\" to play track \"" ++ safeUri ++
      "\" in context \"" ++ c ++ "\""
  | none => "tell application \"Spotify\" to play track \"" ++ safeUri ++ "\""

/-- Parser for the exact shape of the play_track command: the fixed
template with the AppleScript literal scanner at each quoted position,
recovering the decoded application name, track URI and optional context
URI. A successful parse certifies that the command is one statement of
this form and locates every caller-derived byte inside the literals. -/
def parsePlayTrackCmd (s : String) : Option (String × Option String) :=
  match stripP "tell application \"".data s.data with
  | none => none
  | some r1 =>
    match asScanLiteral r1 with
    | none => none
    | some (app, r2) =>
      if app = "Spotify".data then
        match stripP " to play track \"".data r2 with
        | none => none
        | some r3 =>
          match asScanLiteral r3 with
          | none => none
          | some (u, r4) =>
            match r4 with
            | [] => some (⟨u⟩, none)
            | _ =>
              match stripP " in context \"".data r4 with
              | none => none
              | some r5 =>
                match asScanLiteral r5 with
                | some (c, []) => some (⟨u⟩, some ⟨c⟩)
                | _ => none
      else none

/-- The external executor oracle: osascript applied to one script,
producing either stdout or a failure message. -/
abbrev Exec := String → Except String String

/-- executeAppleScript from src/server/index.js: run the executor and
return stdout.trim(); failures are rethrown unchanged. -/
def executeAppleScript (exec : Exec) (script : String) : Except String String :=
  (exec script).map jsTrimS

/-- Run one script, recording the executor invocation. -/
def runScript (exec : Exec) (s : String) : Except String String × List String :=
  (executeAppleScript exec s, [s])

/-- The response envelope: one text block plus the isError flag (false
models the field being omitted on success). -/
structure Response where
  text : String
  isError : Bool
deriving DecidableEq, Repr

/-- What the request handler does with one call: return an envelope, or
throw out of the handler (escaping to the transport layer). -/
inductive HandlerOutcome where
  | envelope : Response → HandlerOutcome
  | thrown : String → HandlerOutcome
deriving DecidableEq, Repr

/-- Wrap the try-block result as the catch block does: success text
passes through; a thrown message becomes "Error: " plus the message with
isError set. -/
def wrapOutcome : Except String String → Response
  | .ok t => ⟨t, false⟩
  | .error m => ⟨"Error: " ++ m, true⟩

/-- An inbound call request: optional tool name (none models an absent
field) and optional argument bag. -/
structure CallRequest where
  name : Option String
  arguments : Option (List (String × JSValue))

/-- JS property access on the argument bag: a missing key reads as
undefined. -/
def getArg (args : List (String × JSValue)) (key : String) : JSValue :=
  match List.lookup key args with
  | some v => v
  | none => JSValue.undef

/-- The multi-line get_current_track script (src/server/index.js lines
412-427), transcribed from the template literal; the inner backslash-n
pairs are AppleScript escapes inside the generated script. -/
def currentTrackScript : String :=
  "\n              tell application \"Spotify\"\n                if player state is not stopped then\n                  set trackName to name of current track\n                  set trackArtist to artist of current track\n                  set trackAlbum to album of current track\n                  set trackDuration to duration of current track\n                  set trackPopularity to popularity of current track\n                  set trackId to id of current track\n                  set trackUrl to spotify url of current track\n                  return \"Name: \" & trackName & \"\\nArtist: \" & trackArtist & \"\\nAlbum: \" & trackAlbum & \"\\nDuration: \" & trackDuration & \" ms\\nPopularity: \" & trackPopularity & \"\\nID: \" & trackId & \"\\nURL: \" & trackUrl\n                else\n                  return \"No track is currently playing\"\n                end if\n              end tell\n            "

/-- The switch statement of the call handler (src/server/index.js lines
361-492): sequential strict-equality comparison of the tool name, each
case validating its arguments and running at most one script; the
default case throws the unknown-tool error. Returns the try-block result
together with the scripts handed to the executor. -/
def dispatchSwitch (exec : Exec) (toolName : String)
    (args : List (String × JSValue)) : Except String String × List String :=
  if toolName = "spotify_play" then
    runScript exec "tell application \"Spotify\" to play"
  else if toolName = "spotify_pause" then
    runScript exec "tell application \"Spotify\" to pause"
  else if toolName = "spotify_playpause" then
    runScript exec "tell application \"Spotify\" to playpause"
  else if toolName = "spotify_next_track" then
    runScript exec "tell application \"Spotify\" to next track"
  else if toolName = "spotify_previous_track" then
    runScript exec "tell application \"Spotify\" to previous track"
  else if toolName = "spotify_play_track" then
    if !isValidSpotifyUri (getArg args "uri") then
      (.error "Invalid Spotify URI format", [])
    else if truthy (getArg args "context") && !isValidSpotifyUri (getArg args "context") then
      (.error "Invalid Spotify context URI format", [])
    else
      runScript exec (playTrackScript (escapeAppleScriptString (getArg args "uri"))
        (if truthy (getArg args "context")
         then some (escapeAppleScriptString (getArg args "context")) else none))
  else if toolName = "spotify_get_current_track" then
    runScript exec currentTrackScript
  else if toolName = "spotify_get_player_state" then
    runScript exec "tell application \"Spotify\" to return player state as string"
  else if toolName = "spotify_set_volume" then
    match validateInteger (getArg args "volume") "volume" (.fin 0) (.fin 100) with
    | .error e => (.error e, [])
    | .ok q =>
      runScript exec ("tell application \"Spotify\" to set sound volume to " ++
        jsNumToString (.fin q))
  else if toolName = "spotify_get_volume" then
    runScript exec "tell application \"Spotify\" to return sound volume"
  else if toolName = "spotify_set_position" then
    match validateNumber (getArg args "position") "position" (.fin 0) (.inf true) with
    | .error e => (.error e, [])
    | .ok q =>
      runScript exec ("tell application \"Spotify\" to set player position to " ++
        jsNumToString (.fin q))
  else if toolName = "spotify_get_position" then
    runScript exec "tell application \"Spotify\" to return player position"
  else if toolName = "spotify_set_repeat" then
    match validateBoolean (getArg args "enabled") "enabled" with
    | .error e => (.error e, [])
    | .ok b =>
      runScript exec ("tell application \"Spotify\" to set repeating to " ++
        (if b then "true" else "false"))
  else if toolName = "spotify_get_repeat" then
    runScript exec "tell application \"Spotify\" to return repeating"
  else if toolName = "spotify_set_shuffle" then
    match validateBoolean (getArg args "enabled") "enabled" with
    | .error e => (.error e, [])
    | .ok b =>
      runScript exec ("tell application \"Spotify\" to set shuffling to " ++
        (if b then "true" else "false"))
  else if toolName = "spotify_get_shuffle" then
    runScript exec "tell application \"Spotify\" to return shuffling"
  else (.error ("Unknown tool: " ++ toolName), [])

/-- The CallToolRequestSchema handler (src/server/index.js lines
350-513): a missing or empty tool name throws before the try block (so
that error is never wrapped into an envelope); otherwise the switch runs
inside the try and its outcome is wrapped by the catch into a uniform
envelope. -/
def handleCallTool (exec : Exec) (req : CallRequest) : HandlerOutcome × List String :=
  match req.name with
  | none => (.thrown "Tool name is required", [])
  | some toolName =>
    if toolName = "" then (.thrown "Tool name is required", [])
    else
      let p := dispatchSwitch exec toolName (req.arguments.getD [])
      (.envelope (wrapOutcome p.1), p.2)

/-- The sixteen tool names of the catalogue (src/server/index.js
ListToolsRequestSchema handler). -/
def toolNames : List String :=
  ["spotify_play", "spotify_pause", "spotify_playpause", "spotify_next_track",
   "spotify_previous_track", "spotify_play_track", "spotify_get_current_track",
   "spotify_get_player_state", "spotify_set_volume", "spotify_get_volume",
   "spotify_set_position", "spotify_get_position", "spotify_set_repeat",
   "spotify_get_repeat", "spotify_set_shuffle", "spotify_get_shuffle"]

/-! ## Basic list and string lemmas -/

theorem data_append (s t : String) : (s ++ t).data = s.data ++ t.data := by
  cases s; cases t; rfl

theorem mk_data (s : String) : (⟨s.data⟩ : String) = s := by
  cases s; rfl

theorem char_le_iff (a b : Char) : a ≤ b ↔ a.toNat ≤ b.toNat := by
  rw [Char.le_def]; exact ⟨fun h => h, fun h => h⟩

theorem stripP_eq_some : ∀ (p l r : List Char), stripP p l = some r ↔ l = p ++ r := by
  intro p
  induction p with
  | nil => intro l r; simp [stripP]
  | cons p ps ih =>
    intro l r
    cases l with
    | nil => simp [stripP]
    | cons c cs =>
      by_cases h : p = c
      · subst h
        simp [stripP, ih]
      · constructor
        · intro hs; simp [stripP, h] at hs
        · intro he
          injection he with h1 h2
          exact absurd h1.symm h

theorem segJoin_nil : segJoin [] = [] := rfl

theorem segJoin_cons (g : List Char) (gs : List (List Char)) :
    segJoin (g :: gs) = ':' :: (g ++ segJoin gs) := rfl

/-! ## The URI matcher agrees with the spec's grammar -/

theorem matchSegBody_iff : ∀ (l : List Char) (seen : Bool),
    matchSegBody l seen = true ↔
      ∃ g segs, (∀ c ∈ g, isAlnumChar c = true) ∧ (seen = true ∨ g ≠ []) ∧
        (∀ x ∈ segs, GoodSeg x) ∧ l = g ++ segJoin segs := by
  intro l
  induction l with
  | nil =>
    intro seen
    simp only [matchSegBody]
    constructor
    · intro h
      exact ⟨[], [], by simp, Or.inl h, by simp, rfl⟩
    · rintro ⟨g, segs, -, hseen, -, heq⟩
      have hg : g = [] := (List.append_eq_nil.mp heq.symm).1
      rcases hseen with h | h
      · exact h
      · exact absurd hg h
  | cons c rest ih =>
    intro seen
    by_cases hc : c = ':'
    · subst hc
      simp only [matchSegBody, if_pos rfl]
      cases seen with
      | false =>
        simp only [if_true, if_false, Bool.false_eq_true, false_iff, false_or]
        rintro ⟨g, segs, hg, hgne, hsegs, heq⟩
        cases g with
        | nil => exact absurd rfl hgne
        | cons a g2 =>
          injection heq with h1 h2
          have := hg a (List.mem_cons_self a g2)
          rw [← h1] at this
          exact absurd this (by decide)
      | true =>
        simp only [if_true]
        rw [ih false]
        constructor
        · rintro ⟨g, segs, hg, hgn, hsegs, heq⟩
          have hgne : g ≠ [] := by
            rcases hgn with h | h
            · exact absurd h (by simp)
            · exact h
          refine ⟨[], g :: segs, by simp, Or.inl trivial, ?_, ?_⟩
          · intro x hx
            rcases List.mem_cons.mp hx with h | h
            · subst h; exact ⟨hgne, hg⟩
            · exact hsegs x h
          · rw [heq]; rfl
        · rintro ⟨g, segs, hg, -, hsegs, heq⟩
          cases g with
          | cons a g2 =>
            injection heq with h1 h2
            have := hg a (List.mem_cons_self a g2)
            rw [← h1] at this
            exact absurd this (by decide)
          | nil =>
            simp only [List.nil_append] at heq
            cases segs with
            | nil => exact absurd heq (by simp [segJoin])
            | cons x xs =>
              rw [segJoin_cons] at heq
              injection heq with h1 h2
              refine ⟨x, xs, (hsegs x (List.mem_cons_self x xs)).2,
                Or.inr (hsegs x (List.mem_cons_self x xs)).1,
                fun y hy => hsegs y (List.mem_cons_of_mem x hy), h2⟩
    · simp only [matchSegBody, if_neg hc]
      by_cases ha : isAlnumChar c = true
      · simp only [if_pos ha]
        rw [ih true]
        constructor
        · rintro ⟨g, segs, hg, -, hsegs, heq⟩
          refine ⟨c :: g, segs, ?_, Or.inr (by simp), hsegs, by rw [heq]; rfl⟩
          intro x hx
          rcases List.mem_cons.mp hx with h | h
          · subst h; exact ha
          · exact hg x h
        · rintro ⟨g, segs, hg, -, hsegs, heq⟩
          cases g with
          | nil =>
            simp only [List.nil_append] at heq
            cases segs with
            | nil => exact absurd heq (by simp [segJoin])
            | cons x xs =>
              rw [segJoin_cons] at heq
              injection heq with h1 h2
              exact absurd h1 hc
          | cons a g2 =>
            injection heq with h1 h2
            subst h1
            exact ⟨g2, segs, fun x hx => hg x (List.mem_cons_of_mem c hx),
              Or.inl rfl, hsegs, h2⟩
      · simp only [if_neg ha, Bool.false_eq_true, false_iff]
        rintro ⟨g, segs, hg, -, hsegs, heq⟩
        cases g with
        | nil =>
          simp only [List.nil_append] at heq
          cases segs with
          | nil => exact absurd heq (by simp [segJoin])
          | cons x xs =>
            rw [segJoin_cons] at heq
            injection heq with h1 h2
            exact absurd h1 hc
        | cons a g2 =>
          injection heq with h1 h2
          subst h1
          exact absurd (hg c (List.mem_cons_self c g2)) ha

theorem matchSegs_iff (l : List Char) :
    matchSegs l = true ↔
      ∃ segs, segs ≠ [] ∧ (∀ x ∈ segs, GoodSeg x) ∧ l = segJoin segs := by
  cases l with
  | nil =>
    simp only [matchSegs]
    constructor
    · intro h; exact absurd h (by simp)
    · rintro ⟨segs, hne, -, heq⟩
      cases segs with
      | nil => exact absurd rfl hne
      | cons x xs => rw [segJoin_cons] at heq; exact absurd heq (by simp)
  | cons c rest =>
    by_cases hc : c = ':'
    · subst hc
      simp only [matchSegs, if_true]
      rw [matchSegBody_iff]
      constructor
      · rintro ⟨g, segs, hg, hgn, hsegs, heq⟩
        have hgne : g ≠ [] := by
          rcases hgn with h | h
          · exact absurd h (by simp)
          · exact h
        refine ⟨g :: segs, by simp, ?_, ?_⟩
        · intro x hx
          rcases List.mem_cons.mp hx with h | h
          · subst h; exact ⟨hgne, hg⟩
          · exact hsegs x h
        · rw [segJoin_cons, heq]
      · rintro ⟨segs, hne, hsegs, heq⟩
        cases segs with
        | nil => exact absurd rfl hne
        | cons x xs =>
          rw [segJoin_cons] at heq
          injection heq with h1 h2
          exact ⟨x, xs, (hsegs x (List.mem_cons_self x xs)).2,
            Or.inr (hsegs x (List.mem_cons_self x xs)).1,
            fun y hy => hsegs y (List.mem_cons_of_mem x hy), h2⟩
    · simp only [matchSegs, if_neg hc]
      constructor
      · intro h; exact absurd h (by simp)
      · rintro ⟨segs, hne, -, heq⟩
        cases segs with
        | nil => exact absurd rfl hne
        | cons x xs =>
          rw [segJoin_cons] at heq
          injection heq with h1 h2
          exact absurd h1 hc

theorem spotifyUriTest_iff (s : String) : spotifyUriTest s = true ↔ SpotifyGrammar s := by
  unfold spotifyUriTest SpotifyGrammar
  cases hs : stripP "spotify:".data s.data with
  | none =>
    simp only [Bool.false_eq_true, false_iff]
    rintro ⟨t, ht, segs, hne, hsegs, heq⟩
    have : stripP "spotify:".data s.data = some (t.data ++ segJoin segs) :=
      (stripP_eq_some _ _ _).mpr (by rw [heq, List.append_assoc])
    rw [hs] at this
    exact Option.noConfusion this
  | some rest =>
    have hrest : s.data = "spotify:".data ++ rest := (stripP_eq_some _ _ _).mp hs
    rw [List.any_eq_true]
    constructor
    · rintro ⟨t, ht, hmatch⟩
      cases hst : stripP t.data rest with
      | none => rw [hst] at hmatch; exact absurd hmatch (by simp)
      | some r =>
        rw [hst] at hmatch
        simp only at hmatch
        rcases (matchSegs_iff r).mp hmatch with ⟨segs, hne, hsegs, rfl⟩
        refine ⟨t, ht, segs, hne, hsegs, ?_⟩
        rw [hrest, (stripP_eq_some _ _ _).mp hst, List.append_assoc]
    · rintro ⟨t, ht, segs, hne, hsegs, heq⟩
      refine ⟨t, ht, ?_⟩
      have hr : rest = t.data ++ segJoin segs := by
        apply List.append_cancel_left
          (show "spotify:".data ++ rest = "spotify:".data ++ (t.data ++ segJoin segs) from ?_)
        rw [← hrest, heq, List.append_assoc]
      rw [(stripP_eq_some t.data rest (segJoin segs)).mpr hr]
      exact (matchSegs_iff _).mpr ⟨segs, hne, hsegs, rfl⟩

/-! ## Escaping and AppleScript literal scanning -/

theorem alnum_ge32 (c : Char) (h : isAlnumChar c = true) : 32 ≤ c.toNat := by
  simp only [isAlnumChar, Bool.or_eq_true, Bool.and_eq_true, decide_eq_true_eq] at h
  have ha : ('a').toNat = 97 := rfl
  have hA : ('A').toNat = 65 := rfl
  have h0 : ('0').toNat = 48 := rfl
  rcases h with (⟨h1, -⟩ | ⟨h1, -⟩) | ⟨h1, -⟩ <;>
    · have h2 := (char_le_iff _ _).mp h1; omega

theorem jsonEscapeChar_plain (c : Char) (hq : c ≠ '"') (hb : c ≠ '\\')
    (h32 : 32 ≤ c.toNat) : jsonEscapeChar c = [c] := by
  have h8 : c ≠ '\x08' := by rintro rfl; exact absurd h32 (by decide)
  have ht : c ≠ '\t' := by rintro rfl; exact absurd h32 (by decide)
  have hn : c ≠ '\n' := by rintro rfl; exact absurd h32 (by decide)
  have hf : c ≠ '\x0c' := by rintro rfl; exact absurd h32 (by decide)
  have hr : c ≠ '\r' := by rintro rfl; exact absurd h32 (by decide)
  have hlt : ¬c.toNat < 32 := by omega
  simp [jsonEscapeChar, hq, hb, h8, ht, hn, hf, hr, hlt]

theorem alnumColon_plain (c : Char) (h : isAlnumChar c = true ∨ c = ':') :
    jsonEscapeChar c = [c] := by
  have h32 : 32 ≤ c.toNat := by
    rcases h with h | h
    · exact alnum_ge32 c h
    · subst h; decide
  have hq : c ≠ '"' := by
    rintro rfl
    rcases h with h | h
    · exact absurd h (by decide)
    · exact absurd h (by decide)
  have hb : c ≠ '\\' := by
    rintro rfl
    rcases h with h | h
    · exact absurd h (by decide)
    · exact absurd h (by decide)
  exact jsonEscapeChar_plain c hq hb h32

theorem alnumColon_good (c : Char) (h : isAlnumChar c = true ∨ c = ':') :
    goodChar c = true := by
  have h32 : 32 ≤ c.toNat := by
    rcases h with h | h
    · exact alnum_ge32 c h
    · subst h; decide
  simp only [goodChar, Bool.or_eq_true, decide_eq_true_eq]
  exact Or.inl (Or.inl (Or.inl h32))

theorem escapeL_cons (c : Char) (tl : List Char) :
    escapeL (c :: tl) = jsonEscapeChar c ++ escapeL tl := rfl

theorem escapeL_plain (l : List Char) (h : ∀ c ∈ l, isAlnumChar c = true ∨ c = ':') :
    escapeL l = l := by
  induction l with
  | nil => rfl
  | cons c tl ih =>
    rw [escapeL_cons, alnumColon_plain c (h c (List.mem_cons_self c tl)),
        ih (fun x hx => h x (List.mem_cons_of_mem c hx))]
    rfl

theorem asScan_quote (rest : List Char) : asScanLiteral ('"' :: rest) = some ([], rest) := by
  rw [asScanLiteral.eq_def]; simp

theorem asScan_esc (d : Char) (rest : List Char) :
    asScanLiteral ('\\' :: d :: rest) =
      (asScanLiteral rest).map fun p => (asUnescapeChar d :: p.1, p.2) := by
  rw [asScanLiteral.eq_def]; simp

theorem asScan_other (c : Char) (rest : List Char) (h1 : c ≠ '"') (h2 : c ≠ '\\') :
    asScanLiteral (c :: rest) = (asScanLiteral rest).map fun p => (c :: p.1, p.2) := by
  rw [asScanLiteral.eq_def]; simp [h1, h2]

theorem asScan_escape : ∀ (l rest : List Char), (∀ c ∈ l, goodChar c = true) →
    asScanLiteral (escapeL l ++ '"' :: rest) = some (l, rest) := by
  intro l
  induction l with
  | nil =>
    intro rest _
    exact asScan_quote rest
  | cons c tl ih =>
    intro rest hgood
    have hc := hgood c (List.mem_cons_self c tl)
    have hrec := ih rest (fun x hx => hgood x (List.mem_cons_of_mem c hx))
    rw [escapeL_cons, List.append_assoc]
    by_cases h1 : c = '"'
    · subst h1
      show asScanLiteral ('\\' :: '"' :: (escapeL tl ++ '"' :: rest)) = _
      rw [asScan_esc, hrec]; rfl
    by_cases h2 : c = '\\'
    · subst h2
      show asScanLiteral ('\\' :: '\\' :: (escapeL tl ++ '"' :: rest)) = _
      rw [asScan_esc, hrec]; rfl
    by_cases h3 : c = '\t'
    · subst h3
      show asScanLiteral ('\\' :: 't' :: (escapeL tl ++ '"' :: rest)) = _
      rw [asScan_esc, hrec]; rfl
    by_cases h4 : c = '\n'
    · subst h4
      show asScanLiteral ('\\' :: 'n' :: (escapeL tl ++ '"' :: rest)) = _
      rw [asScan_esc, hrec]; rfl
    by_cases h5 : c = '\r'
    · subst h5
      show asScanLiteral ('\\' :: 'r' :: (escapeL tl ++ '"' :: rest)) = _
      rw [asScan_esc, hrec]; rfl
    have h32 : 32 ≤ c.toNat := by
      simp only [goodChar, Bool.or_eq_true, decide_eq_true_eq] at hc
      rcases hc with ((h | h) | h) | h
      · exact h
      · exact absurd h h3
      · exact absurd h h4
      · exact absurd h h5
    rw [jsonEscapeChar_plain c h1 h2 h32]
    show asScanLiteral (c :: (escapeL tl ++ '"' :: rest)) = _
    rw [asScan_other c _ h1 h2, hrec]
    rfl

theorem spotifyUriTest_chars (s : String) (h : spotifyUriTest s = true) :
    ∀ c ∈ s.data, isAlnumChar c = true ∨ c = ':' := by
  rcases (spotifyUriTest_iff s).mp h with ⟨t, ht, segs, -, hsegs, heq⟩
  intro c hc
  rw [heq] at hc
  rcases List.mem_append.mp hc with hc2 | hc2
  · rcases List.mem_append.mp hc2 with hc3 | hc3
    · exact (by decide : ∀ x ∈ "spotify:".data, isAlnumChar x = true ∨ x = ':') c hc3
    · exact (by decide :
        ∀ u ∈ uriTypes, ∀ x ∈ u.data, isAlnumChar x = true ∨ x = ':') t ht c hc3
  · rcases List.mem_flatMap.mp hc2 with ⟨g, hg, hcg⟩
    rcases List.mem_cons.mp hcg with h1 | h1
    · exact Or.inr h1
    · exact Or.inl ((hsegs g hg).2 c h1)

theorem parse_play_none (uri : String) (h : ∀ c ∈ uri.data, goodChar c = true) :
    parsePlayTrackCmd (playTrackScript (escapeS uri) none) = some (uri, none) := by
  have hdata : (playTrackScript (escapeS uri) none).data =
      "tell application \"".data ++
        ("Spotify".data ++ '"' :: (" to play track \"".data ++ (escapeL uri.data ++ '"' :: []))) := by
    show ("tell application \"Spotify\" to play track \"" ++ escapeS uri ++ "\"").data = _
    rw [data_append, data_append]
    rw [show ("tell application \"Spotify\" to play track \"" : String).data =
        "tell application \"".data ++ ("Spotify".data ++ '"' :: " to play track \"".data)
      from by decide]
    rw [show (escapeS uri).data = escapeL uri.data from rfl]
    rw [show ("\"" : String).data = '"' :: [] from rfl]
    simp [List.append_assoc]
  have hs1 : stripP "tell application \"".data
      ("tell application \"".data ++
        ("Spotify".data ++ '"' :: (" to play track \"".data ++ (escapeL uri.data ++ '"' :: [])))) =
      some ("Spotify".data ++ '"' :: (" to play track \"".data ++ (escapeL uri.data ++ '"' :: []))) :=
    (stripP_eq_some _ _ _).mpr rfl
  have hs2 : asScanLiteral
      ("Spotify".data ++ '"' :: (" to play track \"".data ++ (escapeL uri.data ++ '"' :: []))) =
      some ("Spotify".data, " to play track \"".data ++ (escapeL uri.data ++ '"' :: [])) := by
    have he : escapeL "Spotify".data = "Spotify".data := escapeL_plain _ (by decide)
    have hsc := asScan_escape "Spotify".data
      (" to play track \"".data ++ (escapeL uri.data ++ '"' :: [])) (by decide)
    rwa [he] at hsc
  have hs3 : stripP " to play track \"".data
      (" to play track \"".data ++ (escapeL uri.data ++ '"' :: [])) =
      some (escapeL uri.data ++ '"' :: []) :=
    (stripP_eq_some _ _ _).mpr rfl
  have hs4 : asScanLiteral (escapeL uri.data ++ '"' :: []) = some (uri.data, []) :=
    asScan_escape _ _ h
  simp only [parsePlayTrackCmd, hdata, hs1, hs2, hs3, hs4, if_true, mk_data]

theorem parse_play_some (uri ctx : String) (hu : ∀ c ∈ uri.data, goodChar c = true)
    (hc : ∀ c ∈ ctx.data, goodChar c = true) :
    parsePlayTrackCmd (playTrackScript (escapeS uri) (some (escapeS ctx))) =
      some (uri, some ctx) := by
  have hdata : (playTrackScript (escapeS uri) (some (escapeS ctx))).data =
      "tell application \"".data ++
        ("Spotify".data ++ '"' :: (" to play track \"".data ++
          (escapeL uri.data ++ '"' :: (" in context \"".data ++ (escapeL ctx.data ++ '"' :: []))))) := by
    show ("tell application \"Spotify\" to play track \"" ++ escapeS uri ++
        "\" in context \"" ++ escapeS ctx ++ "\"").data = _
    rw [data_append, data_append, data_append, data_append]
    rw [show ("tell application \"Spotify\" to play track \"" : String).data =
        "tell application \"".data ++ ("Spotify".data ++ '"' :: " to play track \"".data)
      from by decide]
    rw [show (escapeS uri).data = escapeL uri.data from rfl]
    rw [show (escapeS ctx).data = escapeL ctx.data from rfl]
    rw [show ("\" in context \"" : String).data = '"' :: " in context \"".data from by decide]
    rw [show ("\"" : String).data = '"' :: [] from rfl]
    simp [List.append_assoc]
  have hs1 : stripP "tell application \"".data
      ("tell application \"".data ++
        ("Spotify".data ++ '"' :: (" to play track \"".data ++
          (escapeL uri.data ++ '"' :: (" in context \"".data ++ (escapeL ctx.data ++ '"' :: [])))))) =
      some ("Spotify".data ++ '"' :: (" to play track \"".data ++
        (escapeL uri.data ++ '"' :: (" in context \"".data ++ (escapeL ctx.data ++ '"' :: []))))) :=
    (stripP_eq_some _ _ _).mpr rfl
  have hs2 : asScanLiteral
      ("Spotify".data ++ '"' :: (" to play track \"".data ++
        (escapeL uri.data ++ '"' :: (" in context \"".data ++ (escapeL ctx.data ++ '"' :: []))))) =
      some ("Spotify".data, " to play track \"".data ++
        (escapeL uri.data ++ '"' :: (" in context \"".data ++ (escapeL ctx.data ++ '"' :: [])))) := by
    have he : escapeL "Spotify".data = "Spotify".data := escapeL_plain _ (by decide)
    have hsc := asScan_escape "Spotify".data
      (" to play track \"".data ++
        (escapeL uri.data ++ '"' :: (" in context \"".data ++ (escapeL ctx.data ++ '"' :: []))))
      (by decide)
    rwa [he] at hsc
  have hs3 : stripP " to play track \"".data
      (" to play track \"".data ++
        (escapeL uri.data ++ '"' :: (" in context \"".data ++ (escapeL ctx.data ++ '"' :: [])))) =
      some (escapeL uri.data ++ '"' :: (" in context \"".data ++ (escapeL ctx.data ++ '"' :: []))) :=
    (stripP_eq_some _ _ _).mpr rfl
  have hs4 : asScanLiteral
      (escapeL uri.data ++ '"' :: (" in context \"".data ++ (escapeL ctx.data ++ '"' :: []))) =
      some (uri.data, " in context \"".data ++ (escapeL ctx.data ++ '"' :: [])) :=
    asScan_escape _ _ hu
  have hs5 : stripP " in context \"".data
      (" in context \"".data ++ (escapeL ctx.data ++ '"' :: [])) =
      some (escapeL ctx.data ++ '"' :: []) :=
    (stripP_eq_some _ _ _).mpr rfl
  have hs6 : asScanLiteral (escapeL ctx.data ++ '"' :: []) = some (ctx.data, []) :=
    asScan_escape _ _ hc
  simp only [parsePlayTrackCmd, hdata, hs1, hs2, hs3, hs4, hs5, hs6, if_true, mk_data]
  simp only [List.cons_append]

theorem playScript_no_newline (uri : String) (ctx : Option String)
    (hu : ∀ c ∈ uri.data, isAlnumChar c = true ∨ c = ':')
    (hc : ∀ s, ctx = some s → ∀ c ∈ s.data, isAlnumChar c = true ∨ c = ':') :
    ∀ ch ∈ (playTrackScript (escapeS uri) (ctx.map escapeS)).data, ch ≠ '\n' := by
  have hchar : ∀ (ch : Char), isAlnumChar ch = true ∨ ch = ':' → ch ≠ '\n' := by
    intro ch h hn
    subst hn
    rcases h with h | h
    · exact absurd h (by decide)
    · exact absurd h (by decide)
  cases ctx with
  | none =>
    intro ch hch
    show ch ≠ '\n'
    rw [show Option.map escapeS (none : Option String) = none from rfl] at hch
    rw [show (playTrackScript (escapeS uri) none) =
      "tell application \"Spotify\" to play track \"" ++ escapeS uri ++ "\"" from rfl,
      data_append, data_append] at hch
    rcases List.mem_append.mp hch with h1 | h1
    · rcases List.mem_append.mp h1 with h2 | h2
      · exact (by decide : ∀ x ∈ ("tell application \"Spotify\" to play track \"" : String).data,
          x ≠ '\n') ch h2
      · rw [show (escapeS uri).data = escapeL uri.data from rfl, escapeL_plain _ hu] at h2
        exact hchar ch (hu ch h2)
    · exact (by decide : ∀ x ∈ ("\"" : String).data, x ≠ '\n') ch h1
  | some c =>
    intro ch hch
    show ch ≠ '\n'
    rw [show Option.map escapeS (some c) = some (escapeS c) from rfl] at hch
    rw [show (playTrackScript (escapeS uri) (some (escapeS c))) =
      "tell application \"Spotify\" to play track \"" ++ escapeS uri ++
        "\" in context \"" ++ escapeS c ++ "\"" from rfl,
      data_append, data_append, data_append, data_append] at hch
    have hcc := hc c rfl
    rcases List.mem_append.mp hch with h1 | h1
    · rcases List.mem_append.mp h1 with h2 | h2
      · rcases List.mem_append.mp h2 with h3 | h3
        · rcases List.mem_append.mp h3 with h4 | h4
          · exact (by decide :
              ∀ x ∈ ("tell application \"Spotify\" to play track \"" : String).data,
                x ≠ '\n') ch h4
          · rw [show (escapeS uri).data = escapeL uri.data from rfl,
              escapeL_plain _ hu] at h4
            exact hchar ch (hu ch h4)
        · exact (by decide : ∀ x ∈ ("\" in context \"" : String).data, x ≠ '\n') ch h3
      · rw [show (escapeS c).data = escapeL c.data from rfl, escapeL_plain _ hcc] at h2
        exact hchar ch (hcc ch h2)
    · exact (by decide : ∀ x ∈ ("\"" : String).data, x ≠ '\n') ch h1

/-! ## Dispatcher stepping lemmas -/

theorem handleCallTool_some (exec : Exec) (n : String)
    (args : Option (List (String × JSValue))) (h : n ≠ "") :
    handleCallTool exec ⟨some n, args⟩ =
      (.envelope (wrapOutcome (dispatchSwitch exec n (args.getD [])).1),
       (dispatchSwitch exec n (args.getD [])).2) := by
  simp [handleCallTool, h]

theorem dispatch_play_track (exec : Exec) (args : List (String × JSValue)) :
    dispatchSwitch exec "spotify_play_track" args =
      if !isValidSpotifyUri (getArg args "uri") then
        (.error "Invalid Spotify URI format", [])
      else if truthy (getArg args "context") && !isValidSpotifyUri (getArg args "context") then
        (.error "Invalid Spotify context URI format", [])
      else
        runScript exec (playTrackScript (escapeAppleScriptString (getArg args "uri"))
          (if truthy (getArg args "context")
           then some (escapeAppleScriptString (getArg args "context")) else none)) := rfl

theorem dispatch_set_volume (exec : Exec) (v : JSValue) :
    dispatchSwitch exec "spotify_set_volume" [("volume", v)] =
      match validateInteger v "volume" (.fin 0) (.fin 100) with
      | .error e => (.error e, [])
      | .ok q => runScript exec ("tell application \"Spotify\" to set sound volume to " ++
          jsNumToString (.fin q)) := rfl

theorem dispatch_set_repeat (exec : Exec) (v : JSValue) :
    dispatchSwitch exec "spotify_set_repeat" [("enabled", v)] =
      match validateBoolean v "enabled" with
      | .error e => (.error e, [])
      | .ok b => runScript exec ("tell application \"Spotify\" to set repeating to " ++
          (if b then "true" else "false")) := rfl

theorem dispatch_set_shuffle (exec : Exec) (v : JSValue) :
    dispatchSwitch exec "spotify_set_shuffle" [("enabled", v)] =
      match validateBoolean v "enabled" with
      | .error e => (.error e, [])
      | .ok b => runScript exec ("tell application \"Spotify\" to set shuffling to " ++
          (if b then "true" else "false")) := rfl

theorem validateInteger_num (q : ℚ) (name : String) (mn mx : JSNum) :
    validateInteger (.num (.fin q)) name mn mx =
      if q.den = 1 then
        if jsLt (.fin q) mn || jsLt mx (.fin q) then
          .error (name ++ " must be between " ++ jsNumToString mn ++ " and " ++ jsNumToString mx)
        else .ok q
      else .error (name ++ " must be an integer") := rfl

/-! ## Claims -/

/-- Claim C1: for every uri (and optional context) accepted by the Spotify-URI
validator, the escaped play_track command parses as one statement of the fixed
template whose quoted literals decode back to exactly the caller's values — no
caller-derived byte terminates a string literal or alters the command's grammatical
structure — and the command contains no newline, so no second statement opens. -/
theorem C1_injection_safety (uri : String) (ctx : Option String)
    (hu : spotifyUriTest uri = true) (hc : ctx.all spotifyUriTest = true) :
    parsePlayTrackCmd (playTrackScript (escapeS uri) (ctx.map escapeS)) = some (uri, ctx) ∧
    ∀ ch ∈ (playTrackScript (escapeS uri) (ctx.map escapeS)).data, ch ≠ '\n' := by
  have hu2 := spotifyUriTest_chars uri hu
  have hugood : ∀ c ∈ uri.data, goodChar c = true := fun c h => alnumColon_good c (hu2 c h)
  cases ctx with
  | none =>
    exact ⟨parse_play_none uri hugood,
      playScript_no_newline uri none hu2 (fun s h => by cases h)⟩
  | some c =>
    have hcB : spotifyUriTest c = true := by simpa [Option.all] using hc
    have hc2 := spotifyUriTest_chars c hcB
    have hcgood : ∀ x ∈ c.data, goodChar x = true := fun x h => alnumColon_good x (hc2 x h)
    exact ⟨parse_play_some uri c hugood hcgood,
      playScript_no_newline uri (some c) hu2 (fun s h => by cases h; exact hc2)⟩

theorem C1_injection_safety_witness :
    spotifyUriTest "spotify:track:4uLU6hMCjMI75M1A2tKUQC" = true ∧
    Option.all spotifyUriTest (some "spotify:album:2up3OPMp9Tb4dAKM2erWXQ") = true ∧
    parsePlayTrackCmd (playTrackScript (escapeS "spotify:track:4uLU6hMCjMI75M1A2tKUQC")
        ((some "spotify:album:2up3OPMp9Tb4dAKM2erWXQ").map escapeS)) =
      some ("spotify:track:4uLU6hMCjMI75M1A2tKUQC", some "spotify:album:2up3OPMp9Tb4dAKM2erWXQ") :=
  ⟨by decide, by decide,
    (C1_injection_safety "spotify:track:4uLU6hMCjMI75M1A2tKUQC"
      (some "spotify:album:2up3OPMp9Tb4dAKM2erWXQ") (by decide) (by decide)).1⟩

/-- Claim C2 counterexample: escaping the backspace character U+0008 yields the two
characters backslash-b, which the AppleScript literal grammar decodes to the letter
b (AppleScript has no \b escape), so decode-after-escape is not the identity on all
strings as the claim states. -/
theorem C2_roundtrip_counterexample :
    decodeASLiteral (escapeS "\x08") = some "b" ∧ "b" ≠ "\x08" :=
  ⟨by decide, by decide⟩

/-- Claim C2 (amended): for every string whose characters avoid the C0 control
characters other than tab, newline and carriage return, embedding the escaped text
between double quotes forms a valid AppleScript literal that decodes back to exactly
the original string. -/
theorem C2_roundtrip_amended (s : String) (h : ∀ c ∈ s.data, goodChar c = true) :
    decodeASLiteral (escapeS s) = some s := by
  unfold decodeASLiteral
  rw [show (escapeS s).data = escapeL s.data from rfl]
  rw [show escapeL s.data ++ ['"'] = escapeL s.data ++ '"' :: [] from rfl]
  rw [asScan_escape s.data [] h]

theorem C2_roundtrip_witness :
    (∀ c ∈ ("a\"b\\c\nd\te" : String).data, goodChar c = true) ∧
    decodeASLiteral (escapeS "a\"b\\c\nd\te") = some "a\"b\\c\nd\te" :=
  ⟨by decide, C2_roundtrip_amended "a\"b\\c\nd\te" (by decide)⟩

/-- Claim C3: the Spotify-URI validator is exactly the membership predicate of the
spec's grammar — strings are accepted iff they belong to the grammar, non-string
values are always rejected, the three sample inputs are rejected — and play_track
with an invalid uri returns the invalid-URI error envelope with zero executor
invocations. -/
theorem C3_uri_validator_exact :
    (∀ s : String, isValidSpotifyUri (.str s) = true ↔ SpotifyGrammar s) ∧
    (∀ v : JSValue, (∀ s, v ≠ .str s) → isValidSpotifyUri v = false) ∧
    (isValidSpotifyUri (.str "not-a-uri") = false ∧
     isValidSpotifyUri (.str "spotify:track:") = false ∧
     isValidSpotifyUri (.str "spotify:track:has space") = false) ∧
    (∀ (exec : Exec) (v : JSValue), isValidSpotifyUri v = false →
       handleCallTool exec ⟨some "spotify_play_track", some [("uri", v)]⟩ =
         (.envelope ⟨"Error: Invalid Spotify URI format", true⟩, [])) := by
  refine ⟨?_, ?_, ⟨by decide, by decide, by decide⟩, ?_⟩
  · intro s; exact spotifyUriTest_iff s
  · intro v hv
    cases v with
    | str s => exact absurd rfl (hv s)
    | undef => rfl
    | null => rfl
    | bool b => rfl
    | num x => rfl
  · intro exec v hv
    rw [handleCallTool_some exec _ _ (by decide)]
    rw [show (some [("uri", v)] : Option (List (String × JSValue))).getD [] = [("uri", v)]
      from rfl]
    rw [dispatch_play_track]
    rw [show getArg [("uri", v)] "uri" = v from rfl, hv]
    rfl

theorem C3_uri_validator_exact_witness :
    isValidSpotifyUri (.str "not-a-uri") = false ∧
    handleCallTool (fun _ => .ok "") ⟨some "spotify_play_track",
        some [("uri", .str "not-a-uri")]⟩ =
      (.envelope ⟨"Error: Invalid Spotify URI format", true⟩, []) :=
  ⟨by decide, C3_uri_validator_exact.2.2.2 (fun _ => .ok "") (.str "not-a-uri") (by decide)⟩

/-- Claim C4: every integer volume outside [0,100] makes set_volume return the
invalid-argument envelope naming the parameter and the allowed range, and the
executor is invoked zero times. -/
theorem C4_volume_range (exec : Exec) (n : ℤ) (h : n < 0 ∨ 100 < n) :
    handleCallTool exec ⟨some "spotify_set_volume", some [("volume", .num (.fin (n : ℚ)))]⟩ =
      (.envelope ⟨"Error: volume must be between 0 and 100", true⟩, []) := by
  have hval : validateInteger (.num (.fin (n : ℚ))) "volume" (.fin 0) (.fin 100) =
      .error "volume must be between 0 and 100" := by
    rw [validateInteger_num]
    rw [if_pos (Rat.den_intCast n)]
    have hcond : (jsLt (.fin (n : ℚ)) (.fin 0) || jsLt (.fin 100) (.fin (n : ℚ))) = true := by
      simp only [jsLt, Bool.or_eq_true, decide_eq_true_eq]
      rcases h with h | h
      · exact Or.inl (by exact_mod_cast h)
      · exact Or.inr (by exact_mod_cast h)
    rw [if_pos hcond]
    rfl
  rw [handleCallTool_some exec _ _ (by decide)]
  rw [show (some [("volume", JSValue.num (.fin (n : ℚ)))] :
      Option (List (String × JSValue))).getD [] = [("volume", JSValue.num (.fin (n : ℚ)))]
    from rfl]
  rw [dispatch_set_volume, hval]
  rfl

theorem C4_volume_range_witness :
    ((101 : ℤ) < 0 ∨ 100 < (101 : ℤ)) ∧
    handleCallTool (fun _ => .ok "") ⟨some "spotify_set_volume",
        some [("volume", .num (.fin ((101 : ℤ) : ℚ)))]⟩ =
      (.envelope ⟨"Error: volume must be between 0 and 100", true⟩, []) :=
  ⟨by decide, C4_volume_range (fun _ => .ok "") 101 (by decide)⟩

/-- Claim C5 counterexample: a request with no tool name makes the handler throw
"Tool name is required" instead of returning a Response Envelope — the throw sits
before the try block, so the error is never wrapped and escapes the dispatcher to
the transport layer. -/
theorem C5_missing_name_counterexample :
    handleCallTool (fun _ => .ok "") ⟨none, none⟩ = (.thrown "Tool name is required", []) ∧
    HandlerOutcome.thrown "Tool name is required" ≠
      .envelope ⟨"Error: Tool name is required", true⟩ :=
  ⟨rfl, by decide⟩

/-- Claim C5 (amended): a missing or empty tool name is rejected before lookup by a
throw raised outside the try block; the error therefore escapes the dispatcher as a
fault rather than being converted to a failure envelope, and the executor is never
invoked. -/
theorem C5_missing_name_amended (exec : Exec) (args : Option (List (String × JSValue)))
    (nm : Option String) (h : nm = none ∨ nm = some "") :
    handleCallTool exec ⟨nm, args⟩ = (.thrown "Tool name is required", []) := by
  rcases h with h | h <;> subst h <;> rfl

theorem C5_missing_name_witness :
    handleCallTool (fun _ => .ok "stdout") ⟨some "", some []⟩ =
      (.thrown "Tool name is required", []) :=
  C5_missing_name_amended (fun _ => .ok "stdout") (some []) (some "") (Or.inr rfl)

/-- Claim C6: every nonempty tool name outside the sixteen-name catalogue yields an
error envelope whose text is "Error: Unknown tool: " followed by the requested name,
with zero executor invocations (an empty name is rejected earlier as missing). -/
theorem C6_unknown_tool (exec : Exec) (name : String) (args : List (String × JSValue))
    (h : name ∉ toolNames) (h0 : name ≠ "") :
    handleCallTool exec ⟨some name, some args⟩ =
      (.envelope ⟨"Error: " ++ ("Unknown tool: " ++ name), true⟩, []) ∧
    toolNames.length = 16 := by
  refine ⟨?_, by decide⟩
  simp only [toolNames, List.mem_cons, List.not_mem_nil, or_false, not_or] at h
  obtain ⟨h1, h2, h3, h4, h5, h6, h7, h8, h9, h10, h11, h12, h13, h14, h15, h16⟩ := h
  rw [handleCallTool_some exec _ _ h0]
  simp [dispatchSwitch, h1, h2, h3, h4, h5, h6, h7, h8, h9, h10, h11, h12, h13, h14,
    h15, h16, wrapOutcome]

theorem C6_unknown_tool_witness :
    "spotify_frobnicate" ∉ toolNames ∧
    handleCallTool (fun _ => .ok "") ⟨some "spotify_frobnicate", some []⟩ =
      (.envelope ⟨"Error: " ++ ("Unknown tool: " ++ "spotify_frobnicate"), true⟩, []) :=
  ⟨by decide,
    (C6_unknown_tool (fun _ => .ok "") "spotify_frobnicate" [] (by decide) (by decide)).1⟩

/-- Claim C7 counterexample: for the sample uri the script builder emits the
tell-wrapped command, not the bare text `play track "..."` stated by the claim. -/
theorem C7_sample_counterexample :
    playTrackScript (escapeAppleScriptString (.str "spotify:track:4uLU6hMCjMI75M1A2tKUQC"))
        none =
      "tell application \"Spotify\" to play track \"spotify:track:4uLU6hMCjMI75M1A2tKUQC\"" ∧
    playTrackScript (escapeAppleScriptString (.str "spotify:track:4uLU6hMCjMI75M1A2tKUQC"))
        none ≠
      "play track \"spotify:track:4uLU6hMCjMI75M1A2tKUQC\"" :=
  ⟨by decide, by decide⟩

/-- Claim C7 (amended): for the sample uri with no context, the dispatcher hands the
executor exactly the command
tell application "Spotify" to play track "spotify:track:4uLU6hMCjMI75M1A2tKUQC"
(whose Spotify-directed command text is play track "..."), and when the executor
succeeds the dispatcher returns a non-error envelope whose text is the executor's
whitespace-trimmed stdout. -/
theorem C7_sample_dispatch (exec : Exec) (out : String)
    (h : exec "tell application \"Spotify\" to play track \"spotify:track:4uLU6hMCjMI75M1A2tKUQC\"" =
      .ok out) :
    handleCallTool exec ⟨some "spotify_play_track",
        some [("uri", .str "spotify:track:4uLU6hMCjMI75M1A2tKUQC")]⟩ =
      (.envelope ⟨jsTrimS out, false⟩,
       ["tell application \"Spotify\" to play track \"spotify:track:4uLU6hMCjMI75M1A2tKUQC\""]) := by
  have hstep : handleCallTool exec ⟨some "spotify_play_track",
      some [("uri", .str "spotify:track:4uLU6hMCjMI75M1A2tKUQC")]⟩ =
      (.envelope (wrapOutcome (executeAppleScript exec
        "tell application \"Spotify\" to play track \"spotify:track:4uLU6hMCjMI75M1A2tKUQC\"")),
       ["tell application \"Spotify\" to play track \"spotify:track:4uLU6hMCjMI75M1A2tKUQC\""]) :=
    rfl
  rw [hstep, show executeAppleScript exec
      "tell application \"Spotify\" to play track \"spotify:track:4uLU6hMCjMI75M1A2tKUQC\"" =
      (exec "tell application \"Spotify\" to play track \"spotify:track:4uLU6hMCjMI75M1A2tKUQC\"").map
        jsTrimS from rfl, h]
  rfl

theorem C7_sample_dispatch_witness :
    ((fun _ => Except.ok " out \n" : Exec)
        "tell application \"Spotify\" to play track \"spotify:track:4uLU6hMCjMI75M1A2tKUQC\"" =
      .ok " out \n") ∧
    handleCallTool (fun _ => Except.ok " out \n") ⟨some "spotify_play_track",
        some [("uri", .str "spotify:track:4uLU6hMCjMI75M1A2tKUQC")]⟩ =
      (.envelope ⟨"out", false⟩,
       ["tell application \"Spotify\" to play track \"spotify:track:4uLU6hMCjMI75M1A2tKUQC\""]) := by
  refine ⟨rfl, ?_⟩
  rw [C7_sample_dispatch (fun _ => Except.ok " out \n") " out \n" rfl]
  rfl

/-- Claim C8: the boolean validator accepts a value iff its declared type is boolean,
returning it unchanged, and any non-boolean enabled argument — including the string
"true" — makes set_repeat and set_shuffle return the invalid-argument envelope with
zero executor invocations (no truthy coercion). -/
theorem C8_boolean_validator :
    (∀ (v : JSValue) (name : String) (b : Bool),
       validateBoolean v name = .ok b ↔ v = .bool b) ∧
    (∀ (exec : Exec) (v : JSValue), (∀ b, v ≠ .bool b) →
       handleCallTool exec ⟨some "spotify_set_repeat", some [("enabled", v)]⟩ =
         (.envelope ⟨"Error: enabled must be a boolean", true⟩, []) ∧
       handleCallTool exec ⟨some "spotify_set_shuffle", some [("enabled", v)]⟩ =
         (.envelope ⟨"Error: enabled must be a boolean", true⟩, [])) := by
  constructor
  · intro v name b
    cases v <;> simp [validateBoolean]
  · intro exec v hv
    have hval : validateBoolean v "enabled" = .error "enabled must be a boolean" := by
      cases v with
      | bool b => exact absurd rfl (hv b)
      | undef => rfl
      | null => rfl
      | num x => rfl
      | str s => rfl
    constructor
    · rw [handleCallTool_some exec _ _ (by decide)]
      rw [show (some [("enabled", v)] : Option (List (String × JSValue))).getD [] =
        [("enabled", v)] from rfl]
      rw [dispatch_set_repeat, hval]
      rfl
    · rw [handleCallTool_some exec _ _ (by decide)]
      rw [show (some [("enabled", v)] : Option (List (String × JSValue))).getD [] =
        [("enabled", v)] from rfl]
      rw [dispatch_set_shuffle, hval]
      rfl

theorem C8_boolean_validator_witness :
    (∀ b, JSValue.str "true" ≠ .bool b) ∧
    handleCallTool (fun _ => .ok "") ⟨some "spotify_set_repeat",
        some [("enabled", .str "true")]⟩ =
      (.envelope ⟨"Error: enabled must be a boolean", true⟩, []) :=
  ⟨by decide,
    (C8_boolean_validator.2 (fun _ => .ok "") (.str "true") (by decide)).1⟩

/-- Claim C9: with a valid uri, a context argument holding the empty string passes
validation (the check fires only for truthy context values), is treated as absent,
and the dispatcher runs the no-context command; in general, the context check fails
exactly when the context value is truthy and outside the URI grammar. -/
theorem C9_empty_context :
    (∀ (exec : Exec) (uri : String), spotifyUriTest uri = true →
       handleCallTool exec ⟨some "spotify_play_track",
           some [("uri", .str uri), ("context", .str "")]⟩ =
         (.envelope (wrapOutcome (executeAppleScript exec (playTrackScript (escapeS uri) none))),
          [playTrackScript (escapeS uri) none])) ∧
    (∀ (exec : Exec) (uri : String) (ctxv : JSValue), spotifyUriTest uri = true →
       (handleCallTool exec ⟨some "spotify_play_track",
           some [("uri", .str uri), ("context", ctxv)]⟩ =
          (.envelope ⟨"Error: Invalid Spotify context URI format", true⟩, [])
        ↔ truthy ctxv = true ∧ isValidSpotifyUri ctxv = false)) := by
  constructor
  · intro exec uri h
    rw [handleCallTool_some exec _ _ (by decide)]
    rw [show (some [("uri", JSValue.str uri), ("context", JSValue.str "")] :
        Option (List (String × JSValue))).getD [] =
        [("uri", JSValue.str uri), ("context", JSValue.str "")] from rfl]
    rw [dispatch_play_track]
    rw [show getArg [("uri", JSValue.str uri), ("context", JSValue.str "")] "uri" =
      .str uri from rfl]
    rw [show getArg [("uri", JSValue.str uri), ("context", JSValue.str "")] "context" =
      .str "" from rfl]
    rw [show isValidSpotifyUri (.str uri) = spotifyUriTest uri from rfl, h]
    rfl
  · intro exec uri ctxv h
    rw [handleCallTool_some exec _ _ (by decide)]
    rw [show (some [("uri", JSValue.str uri), ("context", ctxv)] :
        Option (List (String × JSValue))).getD [] =
        [("uri", JSValue.str uri), ("context", ctxv)] from rfl]
    rw [dispatch_play_track]
    rw [show getArg [("uri", JSValue.str uri), ("context", ctxv)] "uri" = .str uri from rfl]
    rw [show getArg [("uri", JSValue.str uri), ("context", ctxv)] "context" = ctxv from rfl]
    rw [show isValidSpotifyUri (.str uri) = spotifyUriTest uri from rfl, h]
    cases hc1 : truthy ctxv with
    | false =>
      simp only [hc1, Bool.false_and, Bool.not_true, if_false, if_true]
      constructor
      · intro heq
        injection heq with e1 e2
        exact absurd e2 (by simp [runScript])
      · rintro ⟨he, -⟩
        exact absurd he (by simp)
    | true =>
      cases hc2 : isValidSpotifyUri ctxv with
      | true =>
        simp only [hc1, hc2, Bool.not_true, Bool.and_false, if_false, if_true]
        constructor
        · intro heq
          injection heq with e1 e2
          exact absurd e2 (by simp [runScript])
        · rintro ⟨-, he⟩
          exact absurd he (by simp)
      | false =>
        simp only [hc1, hc2, Bool.not_false, Bool.and_true, if_true]
        constructor
        · intro _
          constructor <;> trivial
        · intro _
          rfl

theorem C9_empty_context_witness :
    spotifyUriTest "spotify:track:4uLU6hMCjMI75M1A2tKUQC" = true ∧
    handleCallTool (fun _ => .ok "ok") ⟨some "spotify_play_track",
        some [("uri", .str "spotify:track:4uLU6hMCjMI75M1A2tKUQC"), ("context", .str "")]⟩ =
      (.envelope ⟨"ok", false⟩,
       ["tell application \"Spotify\" to play track \"spotify:track:4uLU6hMCjMI75M1A2tKUQC\""]) := by
  refine ⟨by decide, ?_⟩
  rw [C9_empty_context.1 (fun _ => .ok "ok") "spotify:track:4uLU6hMCjMI75M1A2tKUQC" (by decide)]
  rfl

/-- Claim C10: the integer validator checks the Number()-coerced value, so
set_volume accepts exactly the values whose coercion is an integer in [0,100] —
null runs the volume-0 script, the string "50" the volume-50 script and the boolean
true the volume-1 script — while undefined, "abc" and 3.5 are rejected with the
integer error and no executor invocation. -/
theorem C10_integer_coercion :
    (∀ v : JSValue,
       (∃ q, validateInteger v "volume" (.fin 0) (.fin 100) = .ok q) ↔
       (∃ q : ℚ, toNumber v = .fin q ∧ q.den = 1 ∧ 0 ≤ q ∧ q ≤ 100)) ∧
    (∀ exec : Exec,
       handleCallTool exec ⟨some "spotify_set_volume", some [("volume", .null)]⟩ =
         (.envelope (wrapOutcome (executeAppleScript exec
            "tell application \"Spotify\" to set sound volume to 0")),
          ["tell application \"Spotify\" to set sound volume to 0"]) ∧
       handleCallTool exec ⟨some "spotify_set_volume", some [("volume", .str "50")]⟩ =
         (.envelope (wrapOutcome (executeAppleScript exec
            "tell application \"Spotify\" to set sound volume to 50")),
          ["tell application \"Spotify\" to set sound volume to 50"]) ∧
       handleCallTool exec ⟨some "spotify_set_volume", some [("volume", .bool true)]⟩ =
         (.envelope (wrapOutcome (executeAppleScript exec
            "tell application \"Spotify\" to set sound volume to 1")),
          ["tell application \"Spotify\" to set sound volume to 1"]) ∧
       handleCallTool exec ⟨some "spotify_set_volume", some [("volume", .undef)]⟩ =
         (.envelope ⟨"Error: volume must be an integer", true⟩, []) ∧
       handleCallTool exec ⟨some "spotify_set_volume", some [("volume", .str "abc")]⟩ =
         (.envelope ⟨"Error: volume must be an integer", true⟩, []) ∧
       handleCallTool exec ⟨some "spotify_set_volume",
           some [("volume", .num (.fin (mkRat 7 2)))]⟩ =
         (.envelope ⟨"Error: volume must be an integer", true⟩, [])) := by
  constructor
  · intro v
    unfold validateInteger
    cases ht : toNumber v with
    | nan => simp
    | inf b => simp
    | fin q =>
      simp only []
      by_cases hden : q.den = 1
      · rw [if_pos hden]
        by_cases hr : (jsLt (.fin q) (.fin 0) || jsLt (.fin 100) (.fin q)) = true
        · rw [if_pos hr]
          simp only [jsLt, Bool.or_eq_true, decide_eq_true_eq] at hr
          constructor
          · rintro ⟨q2, hq2⟩
            exact absurd hq2 (by simp)
          · rintro ⟨q2, hq2, -, h0, h100⟩
            injection hq2 with hqq
            subst hqq
            rcases hr with hlt | hgt
            · exact absurd hlt (by exact absurd hlt (not_lt.mpr h0))
            · exact absurd hgt (not_lt.mpr h100)
        · rw [if_neg hr]
          simp only [jsLt, Bool.or_eq_true, decide_eq_true_eq, not_or, not_lt] at hr
          constructor
          · rintro -
            exact ⟨q, rfl, hden, hr.1, hr.2⟩
          · rintro -
            exact ⟨q, rfl⟩
      · rw [if_neg hden]
        constructor
        · rintro ⟨q2, hq2⟩
          exact absurd hq2 (by simp)
        · rintro ⟨q2, hq2, hden2, -, -⟩
          injection hq2 with hqq
          subst hqq
          exact absurd hden2 hden
  · intro exec
    exact ⟨rfl, rfl, rfl, rfl, rfl, rfl⟩

end SpotifyDxt
